import Mathlib

/-!
# devkit-oracle: the price-oracle task worker of `cmd/main.go`

A shallow embedding of `TaskWorker.ValidateTask`, `TaskWorker.HandleTask` and
`TaskWorker.fetchTokenPrice`.

* Go strings and byte slices are byte sequences (`List UInt8`); a slice may be nil.
* A Go `(value, error)` return is an `Except`, the error being its message
  (`fmt.Errorf` builds nothing but a message; `%w` prints the wrapped error's message).
* What the worker does to the outside is kept in a `World`: the invocations of
  `http.Client.Get` with the URL text passed, the requests that went out on the wire, and the
  messages handed to the logger.
* What the outside answers is an `Env`: for a URL text, what `http.Client.Get` returns and which
  requests it puts on the wire (none when `net/url` rejects the text, the URL in escaped form,
  one more for each redirect followed), the clock, and the two `encoding/json` entry points the
  worker calls. They are library code, so every theorem holds for all of them.
* `float64` is a type parameter `F`: the worker only moves prices around.
* A `*TaskRequest` parameter may be written through, so a method returns the request as it is
  on return next to its result.
-/

set_option maxRecDepth 8000

namespace DevkitOracle

/-! ## Go values -/

/-- A Go `string`: a sequence of bytes. -/
abbrev GoString := List UInt8

/-- A Go `[]byte`: `none` is the nil slice (an absent field), `some bs` a slice holding `bs`. -/
abbrev ByteSlice := Option (List UInt8)

/-- Go's builtin `len` on a byte slice; the nil slice has length 0. -/
def len : ByteSlice → Nat
  | none => 0
  | some bs => bs.length

/-- The conversion `string(b)`: the bytes of the slice, the empty string for the nil slice. -/
def string : ByteSlice → GoString
  | none => []
  | some bs => bs

/-- A string literal of the source, as its UTF-8 bytes. -/
def lit (s : String) : GoString := s.toUTF8.data.toList

/-- The verb `%d` of `fmt` applied to an `int`: decimal digits, with a leading minus sign for a
negative number. -/
def fmtD : Int → GoString
  | Int.ofNat m => (Nat.toDigits 10 m).map (fun c => c.toNat.toUInt8)
  | Int.negSucc m => 45 :: (Nat.toDigits 10 (m + 1)).map (fun c => c.toNat.toUInt8)

/-- A Go `map[string]V`: `none` is the nil map, `some kvs` holds the entries `kvs`. -/
abbrev GoMap (V : Type) := Option (List (GoString × V))

/-- The two-result index expression `v, ok := m[k]`: `none` stands for `ok == false`.
Indexing a nil map finds nothing. -/
def mapIndex {V : Type} (m : GoMap V) (k : GoString) : Option V :=
  match m with
  | none => none
  | some kvs => kvs.lookup k

/-! ## The data model of `main.go` -/

/-- The `performerV1.TaskRequest` fields the worker reads. -/
structure TaskRequest where
  TaskId : ByteSlice
  Payload : ByteSlice
deriving DecidableEq, Repr

/-- The `performerV1.TaskResponse` fields the worker fills. -/
structure TaskResponse where
  TaskId : ByteSlice
  Result : ByteSlice
deriving DecidableEq, Repr

/-- The struct `PriceResponse`: what is returned to the caller. -/
structure PriceResponse (F : Type) where
  TokenID : GoString
  TokenName : GoString
  Price : F
  Currency : GoString
  Timestamp : Int
deriving DecidableEq, Repr

/-- The anonymous struct behind the field `market_data` of `CoinGeckoResponse`. -/
structure MarketData (F : Type) where
  CurrentPrice : GoMap F

/-- The struct `CoinGeckoResponse`: the decoded reply of the CoinGecko API. -/
structure CoinGeckoResponse (F : Type) where
  ID : GoString
  Symbol : GoString
  Name : GoString
  MarketData : MarketData F

/-! ## The outside world -/

/-- One invocation of the method `Get` of an `http.Client`: the URL text passed to it and the
`Timeout` of the client in seconds. It says what the worker asked of the client, not what the
client sent. -/
structure GetCall where
  url : GoString
  timeoutSeconds : Nat
deriving DecidableEq, Repr

/-- One HTTP request put on the wire by the client: method and URL as sent. -/
structure HttpRequest where
  method : GoString
  url : GoString
deriving DecidableEq, Repr

/-- The level of a log line: `Infow` or `Errorw`. -/
inductive Level where
  | info
  | error
deriving DecidableEq, Repr

/-- One line handed to the logger: its level and message (the structured fields are dropped). -/
structure LogEntry where
  level : Level
  msg : GoString
deriving DecidableEq, Repr

/-- The effects of the worker so far, oldest first: the invocations of `client.Get`, the
requests the client put on the wire, and the log lines. -/
structure World where
  gets : List GetCall
  sent : List HttpRequest
  logs : List LogEntry
deriving DecidableEq, Repr

/-- The call `tw.logger.Sugar().Infow(msg, ...)` or `Errorw(msg, ...)`. -/
def World.log (w : World) (level : Level) (msg : GoString) : World :=
  { w with logs := w.logs ++ [⟨level, msg⟩] }

/-- What `client.Get(url)` followed by `io.ReadAll(resp.Body)` yields: either `Get` fails with
an error, or there is a response with a status code, and reading its body gives the bytes read
and possibly a read error. -/
inductive GetResult where
  | failure (err : GoString)
  | response (StatusCode : Int) (body : GoString) (readErr : Option GoString)

/-- The answers of the outside: what `client.Get` returns for a URL text, the requests it puts
on the wire for that text, `json.Unmarshal` into a `CoinGeckoResponse`, `json.Marshal` of a
`PriceResponse`, and `time.Now().Unix()`. -/
structure Env (F : Type) where
  Get : GoString → GetResult
  Wire : GoString → List HttpRequest
  Unmarshal : GoString → Except GoString (CoinGeckoResponse F)
  Marshal : PriceResponse F → Except GoString (List UInt8)
  Now : Int

/-- The constant `http.StatusOK`. -/
def StatusOK : Int := 200

/-! ## The worker -/

/-- The method `TaskWorker.ValidateTask`: `none` is the nil error. -/
def ValidateTask (t : TaskRequest) (w : World) : Option GoString × TaskRequest × World :=
  let w1 := w.log Level.info (lit "Validating task")
  -- Validate that payload is not empty
  if len t.Payload = 0 then
    (some (lit "task payload cannot be empty"), t, w1)
  else
    -- Validate that payload is a valid string (token ID)
    let tokenID := string t.Payload
    if tokenID = lit "" then
      (some (lit "token ID cannot be empty"), t, w1)
    else
      let w2 := w1.log Level.info (lit "Task validation successful")
      (none, t, w2)

/-- The URL built by `fmt.Sprintf` in `fetchTokenPrice`: `%s` is replaced by the token ID. -/
def coinGeckoURL (tokenID : GoString) : GoString :=
  lit "https://api.coingecko.com/api/v3/coins/" ++ tokenID ++
    lit "?localization=false&tickers=false&market_data=true&community_data=false&developer_data=false&sparkline=false"

/-- The invocation of `client.Get` in `fetchTokenPrice` for a token ID: the URL text, on a client
with a timeout of 10 seconds. -/
def lookupCall (tokenID : GoString) : GetCall := ⟨coinGeckoURL tokenID, 10⟩

/-- The method `TaskWorker.fetchTokenPrice`. -/
def fetchTokenPrice {F : Type} (env : Env F) (tokenID : GoString) (w : World) :
    Except GoString (PriceResponse F) × World :=
  -- CoinGecko API endpoint for token data
  let url := coinGeckoURL tokenID
  -- Create HTTP client with timeout; make API request
  let w1 : World := { w with gets := w.gets ++ [⟨url, 10⟩], sent := w.sent ++ env.Wire url }
  match env.Get url with
  | GetResult.failure err => (Except.error (lit "failed to call CoinGecko API: " ++ err), w1)
  | GetResult.response StatusCode body readErr =>
    -- Check response status
    if StatusCode ≠ StatusOK then
      (Except.error (lit "CoinGecko API returned status " ++ fmtD StatusCode ++ lit ": " ++ body), w1)
    else
      -- Read response body
      match readErr with
      | some err => (Except.error (lit "failed to read response body: " ++ err), w1)
      | none =>
        -- Parse CoinGecko response
        match env.Unmarshal body with
        | Except.error err => (Except.error (lit "failed to parse CoinGecko response: " ++ err), w1)
        | Except.ok cgResp =>
          -- Extract USD price
          match mapIndex cgResp.MarketData.CurrentPrice (lit "usd") with
          | none => (Except.error (lit "USD price not available for token " ++ tokenID), w1)
          | some usdPrice =>
            -- Create price response
            (Except.ok
              { TokenID := cgResp.ID
                TokenName := cgResp.Name
                Price := usdPrice
                Currency := lit "USD"
                Timestamp := env.Now }, w1)

/-- The method `TaskWorker.HandleTask`. -/
def HandleTask {F : Type} (env : Env F) (t : TaskRequest) (w : World) :
    Except GoString TaskResponse × TaskRequest × World :=
  let w1 := w.log Level.info (lit "Handling task")
  -- Extract token ID from payload
  let tokenID := string t.Payload
  let w2 := w1.log Level.info (lit "Fetching price for token")
  -- Call CoinGecko API to get token price
  match fetchTokenPrice env tokenID w2 with
  | (Except.error err, w3) =>
    let w4 := w3.log Level.error (lit "Failed to fetch token price")
    (Except.error (lit "failed to fetch price for token " ++ tokenID ++ lit ": " ++ err), t, w4)
  | (Except.ok priceData, w3) =>
    -- Log the price in human-readable format
    let w4 := w3.log Level.info (lit "Price fetched successfully")
    -- Convert response to JSON
    match env.Marshal priceData with
    | Except.error err => (Except.error (lit "failed to marshal price response: " ++ err), t, w4)
    | Except.ok resultBytes => (Except.ok { TaskId := t.TaskId, Result := some resultBytes }, t, w4)

/-! ## Vocabulary of the statements -/

/-- The keys of a Go map; a nil map has none. -/
def mapKeys {V : Type} (m : GoMap V) : List GoString :=
  match m with
  | none => []
  | some kvs => kvs.map Prod.fst

/-- The text `s` occurs in the message `m`. -/
def occursIn (s m : GoString) : Prop := ∃ pre post : GoString, m = pre ++ s ++ post

/-! ### Reading a URL

The components of a URL after the generic syntax of RFC 3986, section 3, as `url.Parse` splits
them: the fragment follows the first `#`, the query follows the first `?` before it, the scheme
ends at the first `:`, and after `//` the host runs up to the next `/`, where the path starts.
Components are kept as written. This is the reading in which a URL has a path and query
parameters; the worker itself only builds the URL text. -/

/-- The function `strings.Cut` for a one-byte separator: the text before the first `c` and,
when there is a `c`, the text after it. -/
def cut (c : UInt8) : List UInt8 → List UInt8 × Option (List UInt8)
  | [] => ([], none)
  | b :: bs => if b = c then ([], some bs) else ((b :: (cut c bs).1), (cut c bs).2)

/-- The pieces of a text between the occurrences of the separator `c`. -/
def splitOn (c : UInt8) : List UInt8 → List (List UInt8)
  | [] => [[]]
  | b :: bs =>
    if b = c then [] :: splitOn c bs
    else
      match splitOn c bs with
      | [] => [[b]]
      | x :: xs => (b :: x) :: xs

/-- The components of a URL. -/
structure URLParts where
  scheme : GoString
  host : GoString
  path : GoString
  query : Option GoString
  fragment : Option GoString
deriving DecidableEq, Repr

/-- The components of a URL text. The bytes 35, 63, 58 and 47 are `#`, `?`, `:` and `/`. -/
def splitURL (u : GoString) : URLParts :=
  let f := cut 35 u
  let q := cut 63 f.1
  let s := cut 58 q.1
  match s.2 with
  | none => { scheme := [], host := [], path := q.1, query := q.2, fragment := f.2 }
  | some r =>
    if r.take 2 = [47, 47] then
      let a := cut 47 (r.drop 2)
      { scheme := s.1
        host := a.1
        path := match a.2 with
          | none => []
          | some p => 47 :: p
        query := q.2
        fragment := f.2 }
    else { scheme := s.1, host := [], path := r, query := q.2, fragment := f.2 }

/-- The parameters of a query: its pieces between `&` (byte 38), each cut at its first `=`
(byte 61) into a name and a value. -/
def queryParams (query : Option GoString) : List (GoString × GoString) :=
  match query with
  | none => []
  | some q => (splitOn 38 q).map (fun kv => ((cut 61 kv).1, ((cut 61 kv).2).getD []))

/-- The six query flags of the lookup request. -/
def lookupFlags : List (GoString × GoString) :=
  [(lit "localization", lit "false"), (lit "tickers", lit "false"),
   (lit "market_data", lit "true"), (lit "community_data", lit "false"),
   (lit "developer_data", lit "false"), (lit "sparkline", lit "false")]

/-! ## A sample outside world

An upstream that knows the coin `bitcoin` (also when asked for `BITCOIN`), redirects `moved` to
it, has no dollar price for `eurcoin`, answers `nomarket` with an empty object, limits the rate
of `busy`, cannot be reached for `down`, and knows no other coin. The client refuses a URL text
with a control character without sending anything, and sends a space as `%20`. Prices are whole
numbers here. -/

/-- The byte is an ASCII control character, which `net/url` refuses in a URL. -/
def isControl (b : UInt8) : Bool := decide (b < 32) || decide (b = 127)

/-- The text with every space (byte 32) written as `%20`. -/
def escapeSpaces : GoString → GoString
  | [] => []
  | b :: bs => if b = 32 then 37 :: 50 :: 48 :: escapeSpaces bs else b :: escapeSpaces bs

/-- The requests the client of the sample world puts on the wire for a URL text. -/
def sampleWire (url : GoString) : List HttpRequest :=
  if url.any isControl then []
  else if url = coinGeckoURL (lit "moved") then
    [⟨lit "GET", url⟩, ⟨lit "GET", coinGeckoURL (lit "bitcoin")⟩]
  else [⟨lit "GET", escapeSpaces url⟩]

/-- The body the sample upstream sends for `bitcoin`. -/
def bitcoinBody : GoString :=
  lit "\x7b\"id\":\"bitcoin\",\"symbol\":\"btc\",\"name\":\"Bitcoin\",\"market_data\":\x7b\"current_price\":\x7b\"eur\":61000,\"usd\":67123\x7d\x7d\x7d"

/-- The body the sample upstream sends for `eurcoin`: a price in euro only. -/
def eurcoinBody : GoString :=
  lit "\x7b\"id\":\"eurcoin\",\"symbol\":\"eurc\",\"name\":\"Euro Coin\",\"market_data\":\x7b\"current_price\":\x7b\"eur\":1\x7d\x7d\x7d"

/-- The HTTP client of the sample world. -/
def sampleGet (url : GoString) : GetResult :=
  if url.any isControl then
    GetResult.failure (lit "net/url: invalid control character in URL")
  else if url = coinGeckoURL (lit "bitcoin") ∨ url = coinGeckoURL (lit "BITCOIN") ∨
      url = coinGeckoURL (lit "moved") then
    GetResult.response 200 bitcoinBody none
  else if url = coinGeckoURL (lit "eurcoin") then
    GetResult.response 200 eurcoinBody none
  else if url = coinGeckoURL (lit "nomarket") then
    GetResult.response 200 (lit "\x7b\x7d") none
  else if url = coinGeckoURL (lit "busy") then
    GetResult.response 429 (lit "rate limited") none
  else if url = coinGeckoURL (lit "down") then
    GetResult.failure (lit "context deadline exceeded")
  else
    GetResult.response 404 (lit "\x7b\"error\":\"coin not found\"\x7d") none

/-- The decoder of the sample world, on the three bodies it can meet with status 200. -/
def sampleUnmarshal (body : GoString) : Except GoString (CoinGeckoResponse Int) :=
  if body = bitcoinBody then
    Except.ok
      { ID := lit "bitcoin", Symbol := lit "btc", Name := lit "Bitcoin"
        MarketData := ⟨some [(lit "eur", 61000), (lit "usd", 67123)]⟩ }
  else if body = eurcoinBody then
    Except.ok
      { ID := lit "eurcoin", Symbol := lit "eurc", Name := lit "Euro Coin"
        MarketData := ⟨some [(lit "eur", 1)]⟩ }
  else if body = lit "\x7b\x7d" then
    Except.ok { ID := [], Symbol := [], Name := [], MarketData := ⟨none⟩ }
  else
    Except.error (lit "unexpected end of JSON input")

/-- The encoder of the sample world: the five fields in order, separated by line feeds. It
stands in for `json.Marshal`. -/
def sampleMarshal (q : PriceResponse Int) : Except GoString (List UInt8) :=
  Except.ok (q.TokenID ++ 10 :: q.TokenName ++ 10 :: fmtD q.Price ++ 10 :: q.Currency ++
    10 :: fmtD q.Timestamp)

/-- The sample world, observed at Unix time 1700000000. -/
def sampleEnv : Env Int :=
  { Get := sampleGet, Wire := sampleWire, Unmarshal := sampleUnmarshal, Marshal := sampleMarshal,
    Now := 1700000000 }

/-- A world in which nothing has happened yet. -/
def World.empty : World := ⟨[], [], []⟩

/-! ## Validation -/

theorem len_eq_zero_iff (b : ByteSlice) : len b = 0 ↔ (b = none ∨ b = some []) := by
  cases b with
  | none => simp [len]
  | some bs => simp [len]

theorem string_eq_nil_iff (b : ByteSlice) : string b = [] ↔ len b = 0 := by
  cases b with
  | none => simp [len, string]
  | some bs => simp [len, string]

theorem lit_empty : lit "" = [] := by decide

/-- C1: `ValidateTask` returns an error exactly when the payload has length 0, that is when it
is absent (nil) or empty; a payload of white space only and the identifier
`invalid-token-id-xyz123`, which no upstream knows, both pass. -/
theorem ValidateTask_error_iff_empty_payload :
    (∀ (t : TaskRequest) (w : World),
      ((ValidateTask t w).1 ≠ none ↔ len t.Payload = 0) ∧
      (len t.Payload = 0 ↔ (t.Payload = none ∨ t.Payload = some []))) ∧
    (∀ (taskId : ByteSlice) (w : World),
      (ValidateTask ⟨taskId, some (lit " \t\n ")⟩ w).1 = none) ∧
    (∀ (taskId : ByteSlice) (w : World),
      (ValidateTask ⟨taskId, some (lit "invalid-token-id-xyz123")⟩ w).1 = none) := by
  refine ⟨fun t w => ⟨?_, len_eq_zero_iff _⟩, fun taskId w => ?_, fun taskId w => ?_⟩
  · unfold ValidateTask
    by_cases h : len t.Payload = 0
    · simp [h]
    · have h2 : string t.Payload ≠ [] := fun e => h ((string_eq_nil_iff _).1 e)
      simp [h, h2, lit_empty]
  · have h1 : len (some (lit " \t\n ")) ≠ 0 := by decide
    have h2 : string (some (lit " \t\n ")) ≠ lit "" := by decide
    simp [ValidateTask, h1, h2]
  · have h1 : len (some (lit "invalid-token-id-xyz123")) ≠ 0 := by decide
    have h2 : string (some (lit "invalid-token-id-xyz123")) ≠ lit "" := by decide
    simp [ValidateTask, h1, h2]

/-! ## What one run does to the world and to the request -/

theorem fetchTokenPrice_world {F : Type} (env : Env F) (tokenID : GoString) (w : World) :
    (fetchTokenPrice env tokenID w).2 =
      { w with gets := w.gets ++ [lookupCall tokenID]
               sent := w.sent ++ env.Wire (coinGeckoURL tokenID) } := by
  simp only [fetchTokenPrice, lookupCall]
  repeat' split
  all_goals rfl

/-- The method `ValidateTask` never touches the client. -/
theorem ValidateTask_no_call (t : TaskRequest) (w : World) :
    (ValidateTask t w).2.2.gets = w.gets ∧ (ValidateTask t w).2.2.sent = w.sent := by
  simp only [ValidateTask]
  repeat' split
  all_goals exact ⟨rfl, rfl⟩

/-- The result of `fetchTokenPrice` does not depend on what happened before. -/
theorem fetchTokenPrice_result_world {F : Type} (env : Env F) (tokenID : GoString)
    (w w' : World) : (fetchTokenPrice env tokenID w).1 = (fetchTokenPrice env tokenID w').1 := by
  simp only [fetchTokenPrice]
  repeat' split
  all_goals rfl

/-- The run of `HandleTask` after a failed `fetchTokenPrice`. -/
theorem HandleTask_of_fetch_error {F : Type} (env : Env F) (t : TaskRequest) (w w3 : World)
    (err : GoString)
    (h : fetchTokenPrice env (string t.Payload)
      ((w.log Level.info (lit "Handling task")).log Level.info (lit "Fetching price for token"))
      = (Except.error err, w3)) :
    HandleTask env t w =
      (Except.error (lit "failed to fetch price for token " ++ string t.Payload ++ lit ": " ++ err),
        t, w3.log Level.error (lit "Failed to fetch token price")) := by
  simp only [HandleTask, h]

/-- The run of `HandleTask` after a successful `fetchTokenPrice`. -/
theorem HandleTask_of_fetch_ok {F : Type} (env : Env F) (t : TaskRequest) (w w3 : World)
    (q : PriceResponse F)
    (h : fetchTokenPrice env (string t.Payload)
      ((w.log Level.info (lit "Handling task")).log Level.info (lit "Fetching price for token"))
      = (Except.ok q, w3)) :
    HandleTask env t w =
      match env.Marshal q with
      | Except.error err =>
        (Except.error (lit "failed to marshal price response: " ++ err), t,
          w3.log Level.info (lit "Price fetched successfully"))
      | Except.ok resultBytes =>
        (Except.ok { TaskId := t.TaskId, Result := some resultBytes }, t,
          w3.log Level.info (lit "Price fetched successfully")) := by
  simp only [HandleTask, h]

/-- The method `HandleTask` invokes `client.Get` once, through `fetchTokenPrice` on
`string(t.Payload)`, and what goes out on the wire is what the client sends for that text. -/
theorem HandleTask_calls {F : Type} (env : Env F) (t : TaskRequest) (w : World) :
    (HandleTask env t w).2.2.gets = w.gets ++ [lookupCall (string t.Payload)] ∧
    (HandleTask env t w).2.2.sent = w.sent ++ env.Wire (coinGeckoURL (string t.Payload)) := by
  have hw := fetchTokenPrice_world env (string t.Payload)
    ((w.log Level.info (lit "Handling task")).log Level.info (lit "Fetching price for token"))
  rcases hf : fetchTokenPrice env (string t.Payload)
    ((w.log Level.info (lit "Handling task")).log Level.info (lit "Fetching price for token"))
    with ⟨r, w3⟩
  rw [hf] at hw
  simp only at hw
  subst hw
  cases r with
  | error err => rw [HandleTask_of_fetch_error env t w _ err hf]; exact ⟨rfl, rfl⟩
  | ok q =>
    rw [HandleTask_of_fetch_ok env t w _ q hf]
    split <;> exact ⟨rfl, rfl⟩

theorem HandleTask_request {F : Type} (env : Env F) (t : TaskRequest) (w : World) :
    (HandleTask env t w).2.1 = t := by
  rcases hf : fetchTokenPrice env (string t.Payload)
    ((w.log Level.info (lit "Handling task")).log Level.info (lit "Fetching price for token"))
    with ⟨r, w3⟩
  cases r with
  | error err => rw [HandleTask_of_fetch_error env t w _ err hf]
  | ok q =>
    rw [HandleTask_of_fetch_ok env t w _ q hf]
    split <;> rfl

/-- The result of `HandleTask` when `fetchTokenPrice` fails for the request's identifier. -/
theorem HandleTask_result_of_error {F : Type} (env : Env F) (t : TaskRequest) (w : World)
    (err : GoString)
    (h : (fetchTokenPrice env (string t.Payload) w).1 = Except.error err) :
    (HandleTask env t w).1 =
      Except.error (lit "failed to fetch price for token " ++ string t.Payload ++ lit ": " ++ err) := by
  rw [fetchTokenPrice_result_world env _ w
    ((w.log Level.info (lit "Handling task")).log Level.info (lit "Fetching price for token"))] at h
  rcases hf : fetchTokenPrice env (string t.Payload)
    ((w.log Level.info (lit "Handling task")).log Level.info (lit "Fetching price for token"))
    with ⟨r, w3⟩
  rw [hf] at h
  simp only at h
  subst h
  rw [HandleTask_of_fetch_error env t w _ err hf]

/-- The result of `HandleTask` when `fetchTokenPrice` succeeds for the request's identifier. -/
theorem HandleTask_result_of_ok {F : Type} (env : Env F) (t : TaskRequest) (w : World)
    (q : PriceResponse F)
    (h : (fetchTokenPrice env (string t.Payload) w).1 = Except.ok q) :
    (HandleTask env t w).1 =
      match env.Marshal q with
      | Except.error err => Except.error (lit "failed to marshal price response: " ++ err)
      | Except.ok resultBytes => Except.ok { TaskId := t.TaskId, Result := some resultBytes } := by
  rw [fetchTokenPrice_result_world env _ w
    ((w.log Level.info (lit "Handling task")).log Level.info (lit "Fetching price for token"))] at h
  rcases hf : fetchTokenPrice env (string t.Payload)
    ((w.log Level.info (lit "Handling task")).log Level.info (lit "Fetching price for token"))
    with ⟨r, w3⟩
  rw [hf] at h
  simp only at h
  subst h
  rw [HandleTask_of_fetch_ok env t w _ _ hf]
  split <;> rfl

/-- A successful `HandleTask` comes from a successful `fetchTokenPrice` and a successful
`json.Marshal` of its quote. -/
theorem HandleTask_ok_inv {F : Type} (env : Env F) (t : TaskRequest) (w : World)
    (resp : TaskResponse) (h : (HandleTask env t w).1 = Except.ok resp) :
    ∃ (q : PriceResponse F) (resultBytes : List UInt8),
      (fetchTokenPrice env (string t.Payload) w).1 = Except.ok q ∧
      env.Marshal q = Except.ok resultBytes ∧
      resp = { TaskId := t.TaskId, Result := some resultBytes } := by
  rcases hf : (fetchTokenPrice env (string t.Payload) w).1 with err | q
  · rw [HandleTask_result_of_error env t w err hf] at h
    cases h
  · rw [HandleTask_result_of_ok env t w q hf] at h
    rcases hm : env.Marshal q with err | resultBytes
    · rw [hm] at h
      cases h
    · rw [hm] at h
      simp only [Except.ok.injEq] at h
      exact ⟨q, resultBytes, rfl, hm, h.symm⟩

/-- A successful `fetchTokenPrice` saw status 200, a body read in full that decodes, and a
`usd` entry in the decoded price map; its quote is built from these. -/
theorem fetchTokenPrice_ok_inv {F : Type} (env : Env F) (tokenID : GoString) (w : World)
    (q : PriceResponse F) (h : (fetchTokenPrice env tokenID w).1 = Except.ok q) :
    ∃ (body : GoString) (cgResp : CoinGeckoResponse F) (usdPrice : F),
      env.Get (coinGeckoURL tokenID) = GetResult.response 200 body none ∧
      env.Unmarshal body = Except.ok cgResp ∧
      mapIndex cgResp.MarketData.CurrentPrice (lit "usd") = some usdPrice ∧
      q = { TokenID := cgResp.ID, TokenName := cgResp.Name, Price := usdPrice,
            Currency := lit "USD", Timestamp := env.Now } := by
  simp only [fetchTokenPrice] at h
  split at h
  · cases h
  · rename_i StatusCode body readErr hget
    split at h
    · cases h
    · rename_i hcode
      have hcode2 : StatusCode = 200 := by
        simpa [StatusOK] using hcode
      subst hcode2
      split at h
      · cases h
      · split at h
        · cases h
        · rename_i cgResp hun
          split at h
          · cases h
          · rename_i usdPrice hidx
            simp only [Except.ok.injEq] at h
            exact ⟨body, cgResp, usdPrice, hget, hun, hidx, h.symm⟩

theorem mapIndex_eq_none_iff {V : Type} (m : GoMap V) (k : GoString) :
    mapIndex m k = none ↔ k ∉ mapKeys m := by
  cases m with
  | none => simp [mapIndex, mapKeys]
  | some kvs =>
    simp only [mapIndex, mapKeys, List.mem_map, Prod.exists, exists_and_right, exists_eq_right,
      not_exists]
    induction kvs with
    | nil => simp [List.lookup]
    | cons kv kvs ih =>
      rcases kv with ⟨k1, v1⟩
      by_cases hk : k = k1
      · subst hk
        have hl : List.lookup k ((k, v1) :: kvs) = some v1 := by simp [List.lookup]
        rw [hl]
        constructor
        · intro h
          cases h
        · intro h
          exact absurd (List.mem_cons_self _ _) (h v1)
      · have hk2 : (k == k1) = false := by simpa using hk
        simp only [List.lookup, hk2, ih, List.mem_cons, Prod.mk.injEq]
        constructor
        · intro h v hv
          rcases hv with ⟨h1, _⟩ | hv
          · exact hk h1
          · exact h v hv
        · intro h v hv
          exact h v (Or.inr hv)

theorem occursIn_mid (a s b : GoString) : occursIn s (a ++ s ++ b) := ⟨a, b, rfl⟩

theorem occursIn_end (a s : GoString) : occursIn s (a ++ s) := ⟨a, [], by simp⟩

/-! ## The claims -/

/-- C2, counterexample: a request whose payload is absent, and one whose payload is empty, make
`HandleTask` call `client.Get` all the same, on the URL text with an empty identifier; in the
sample world the client sends that GET. -/
theorem HandleTask_empty_payload_calls_upstream :
    len (none : ByteSlice) = 0 ∧ len (some []) = 0 ∧
    (HandleTask sampleEnv ⟨some (lit "task-1"), none⟩ World.empty).2.2.gets ≠ World.empty.gets ∧
    (HandleTask sampleEnv ⟨some (lit "task-1"), some []⟩ World.empty).2.2.gets =
      [⟨lit "https://api.coingecko.com/api/v3/coins/?localization=false&tickers=false&market_data=true&community_data=false&developer_data=false&sparkline=false", 10⟩] ∧
    (HandleTask sampleEnv ⟨some (lit "task-1"), some []⟩ World.empty).2.2.sent =
      [⟨lit "GET", lit "https://api.coingecko.com/api/v3/coins/?localization=false&tickers=false&market_data=true&community_data=false&developer_data=false&sparkline=false"⟩] := by
  decide

/-- C2, amended: for a request whose payload is empty or absent, `ValidateTask` fails with
`task payload cannot be empty` and attempts no upstream call: it does not invoke the client and
nothing goes out. `HandleTask` has no payload check of its own: called on such a request it
invokes `client.Get` on the URL text for the empty identifier, and what goes out is what the
client sends for that text. -/
theorem ValidateTask_gates_empty_payload {F : Type} (env : Env F) (t : TaskRequest) (w : World)
    (h : len t.Payload = 0) :
    (ValidateTask t w).1 = some (lit "task payload cannot be empty") ∧
    (ValidateTask t w).2.2.gets = w.gets ∧
    (ValidateTask t w).2.2.sent = w.sent ∧
    (HandleTask env t w).2.2.gets = w.gets ++ [lookupCall []] ∧
    (HandleTask env t w).2.2.sent = w.sent ++ env.Wire (coinGeckoURL []) := by
  have hs : string t.Payload = [] := (string_eq_nil_iff _).2 h
  have hc := HandleTask_calls env t w
  rw [hs] at hc
  refine ⟨?_, (ValidateTask_no_call t w).1, (ValidateTask_no_call t w).2, hc.1, hc.2⟩
  simp [ValidateTask, h]

/-- Witness for C2: the request of the test "Empty Payload Validation". -/
theorem ValidateTask_gates_empty_payload_witness :
    len (TaskRequest.mk (some (lit "test-task-empty")) (some (lit ""))).Payload = 0 ∧
    (ValidateTask ⟨some (lit "test-task-empty"), some (lit "")⟩ World.empty).1 =
      some (lit "task payload cannot be empty") ∧
    (ValidateTask ⟨some (lit "test-task-empty"), some (lit "")⟩ World.empty).2.2.gets =
      World.empty.gets ∧
    (ValidateTask ⟨some (lit "test-task-empty"), some (lit "")⟩ World.empty).2.2.sent =
      World.empty.sent ∧
    (HandleTask sampleEnv ⟨some (lit "test-task-empty"), some (lit "")⟩ World.empty).2.2.gets =
      World.empty.gets ++ [lookupCall []] ∧
    (HandleTask sampleEnv ⟨some (lit "test-task-empty"), some (lit "")⟩ World.empty).2.2.sent =
      World.empty.sent ++ sampleEnv.Wire (coinGeckoURL []) :=
  ⟨by decide,
    ValidateTask_gates_empty_payload sampleEnv
      ⟨some (lit "test-task-empty"), some (lit "")⟩ World.empty (by decide)⟩

/-- C3: when `HandleTask` succeeds, the `TaskId` of the response is the `TaskId` of the request,
whatever it is (nil and empty included), and the request is the same on return. -/
theorem HandleTask_echoes_TaskId {F : Type} (env : Env F) (t : TaskRequest) (w : World)
    (resp : TaskResponse) (h : (HandleTask env t w).1 = Except.ok resp) :
    resp.TaskId = t.TaskId ∧ (HandleTask env t w).2.1 = t := by
  obtain ⟨q, resultBytes, _, _, hresp⟩ := HandleTask_ok_inv env t w resp h
  subst hresp
  exact ⟨rfl, HandleTask_request env t w⟩

/-- Witness for C3: the request of the test "Valid Bitcoin Price Request" in the sample world. -/
theorem HandleTask_echoes_TaskId_witness :
    (HandleTask sampleEnv ⟨some (lit "test-task-bitcoin"), some (lit "bitcoin")⟩ World.empty).1 =
      Except.ok ⟨some (lit "test-task-bitcoin"),
        some (lit "bitcoin\nBitcoin\n67123\nUSD\n1700000000")⟩ ∧
    (TaskResponse.mk (some (lit "test-task-bitcoin"))
        (some (lit "bitcoin\nBitcoin\n67123\nUSD\n1700000000"))).TaskId =
      (TaskRequest.mk (some (lit "test-task-bitcoin")) (some (lit "bitcoin"))).TaskId ∧
    (HandleTask sampleEnv ⟨some (lit "test-task-bitcoin"), some (lit "bitcoin")⟩ World.empty).2.1 =
      ⟨some (lit "test-task-bitcoin"), some (lit "bitcoin")⟩ :=
  ⟨by rfl, HandleTask_echoes_TaskId sampleEnv _ World.empty _ (by rfl)⟩

/-- C4: when `fetchTokenPrice` succeeds, the upstream answered with status 200 and a body that
decodes to a record with a `usd` price, and the quote's `TokenID`, `TokenName` and `Price` are
that record's `id`, `name` and `usd` price, unchanged; so the price is positive when the
upstream price is. -/
theorem fetchTokenPrice_quote_from_upstream {F : Type} [Zero F] [LT F] (env : Env F)
    (tokenID : GoString) (w : World) (q : PriceResponse F)
    (h : (fetchTokenPrice env tokenID w).1 = Except.ok q) :
    ∃ (body : GoString) (cgResp : CoinGeckoResponse F) (usdPrice : F),
      env.Get (coinGeckoURL tokenID) = GetResult.response 200 body none ∧
      env.Unmarshal body = Except.ok cgResp ∧
      mapIndex cgResp.MarketData.CurrentPrice (lit "usd") = some usdPrice ∧
      q.TokenID = cgResp.ID ∧ q.TokenName = cgResp.Name ∧ q.Price = usdPrice ∧
      (0 < usdPrice → 0 < q.Price) := by
  obtain ⟨body, cgResp, usdPrice, hget, hun, hidx, hq⟩ := fetchTokenPrice_ok_inv env tokenID w q h
  subst hq
  exact ⟨body, cgResp, usdPrice, hget, hun, hidx, rfl, rfl, rfl, fun hpos => hpos⟩

/-- Witness for C4: asked for BITCOIN, the sample upstream reports the identifier bitcoin, and the quote carries the reported one. -/
theorem fetchTokenPrice_quote_from_upstream_witness :
    (fetchTokenPrice sampleEnv (lit "BITCOIN") World.empty).1 =
      Except.ok ⟨lit "bitcoin", lit "Bitcoin", 67123, lit "USD", 1700000000⟩ ∧
    lit "bitcoin" ≠ lit "BITCOIN" ∧
    ∃ (body : GoString) (cgResp : CoinGeckoResponse Int) (usdPrice : Int),
      sampleEnv.Get (coinGeckoURL (lit "BITCOIN")) = GetResult.response 200 body none ∧
      sampleEnv.Unmarshal body = Except.ok cgResp ∧
      mapIndex cgResp.MarketData.CurrentPrice (lit "usd") = some usdPrice ∧
      (PriceResponse.mk (lit "bitcoin") (lit "Bitcoin") (67123 : Int) (lit "USD")
        1700000000).TokenID = cgResp.ID ∧
      (PriceResponse.mk (lit "bitcoin") (lit "Bitcoin") (67123 : Int) (lit "USD")
        1700000000).TokenName = cgResp.Name ∧
      (PriceResponse.mk (lit "bitcoin") (lit "Bitcoin") (67123 : Int) (lit "USD")
        1700000000).Price = usdPrice ∧
      (0 < usdPrice → 0 < (PriceResponse.mk (lit "bitcoin") (lit "Bitcoin") (67123 : Int)
        (lit "USD") 1700000000).Price) :=
  ⟨by rfl, by decide,
    fetchTokenPrice_quote_from_upstream sampleEnv (lit "BITCOIN") World.empty _ (by rfl)⟩

/-- C5: every quote that `fetchTokenPrice` returns has `Currency` equal to `USD`, and every
result that `HandleTask` returns is the encoding by `json.Marshal` of such a quote. -/
theorem quote_currency_is_USD {F : Type} (env : Env F) (w : World) :
    (∀ (tokenID : GoString) (q : PriceResponse F),
      (fetchTokenPrice env tokenID w).1 = Except.ok q → q.Currency = lit "USD") ∧
    (∀ (t : TaskRequest) (resp : TaskResponse),
      (HandleTask env t w).1 = Except.ok resp →
      ∃ (q : PriceResponse F) (resultBytes : List UInt8),
        (fetchTokenPrice env (string t.Payload) w).1 = Except.ok q ∧
        q.Currency = lit "USD" ∧
        env.Marshal q = Except.ok resultBytes ∧ resp.Result = some resultBytes) := by
  have hfetch : ∀ (tokenID : GoString) (q : PriceResponse F),
      (fetchTokenPrice env tokenID w).1 = Except.ok q → q.Currency = lit "USD" := by
    intro tokenID q h
    obtain ⟨body, cgResp, usdPrice, _, _, _, hq⟩ := fetchTokenPrice_ok_inv env tokenID w q h
    subst hq
    rfl
  refine ⟨hfetch, ?_⟩
  intro t resp h
  obtain ⟨q, resultBytes, hf, hm, hresp⟩ := HandleTask_ok_inv env t w resp h
  subst hresp
  exact ⟨q, resultBytes, hf, hfetch _ q hf, hm, rfl⟩

/-- Witness for C5: the quote for bitcoin in the sample world, and the result built from it. -/
theorem quote_currency_is_USD_witness :
    (PriceResponse.mk (lit "bitcoin") (lit "Bitcoin") (67123 : Int) (lit "USD")
      1700000000).Currency = lit "USD" ∧
    ∃ (q : PriceResponse Int) (resultBytes : List UInt8),
      (fetchTokenPrice sampleEnv
        (string (TaskRequest.mk none (some (lit "bitcoin"))).Payload) World.empty).1 =
        Except.ok q ∧
      q.Currency = lit "USD" ∧
      sampleEnv.Marshal q = Except.ok resultBytes ∧
      (TaskResponse.mk none (some (lit "bitcoin\nBitcoin\n67123\nUSD\n1700000000"))).Result =
        some resultBytes :=
  ⟨(quote_currency_is_USD sampleEnv World.empty).1 (lit "bitcoin") _ (by rfl),
    (quote_currency_is_USD sampleEnv World.empty).2 ⟨none, some (lit "bitcoin")⟩ _ (by rfl)⟩

/-- C6: when the upstream answers with status 200 and a body that decodes, and the decoded
`market_data.current_price` map has no key `usd` (a nil map included), `fetchTokenPrice`
returns no quote: it fails with the error that the USD price is not available for the token. -/
theorem fetchTokenPrice_missing_usd {F : Type} (env : Env F) (tokenID : GoString) (w : World)
    (body : GoString) (cgResp : CoinGeckoResponse F)
    (hget : env.Get (coinGeckoURL tokenID) = GetResult.response 200 body none)
    (hun : env.Unmarshal body = Except.ok cgResp)
    (hno : lit "usd" ∉ mapKeys cgResp.MarketData.CurrentPrice) :
    (fetchTokenPrice env tokenID w).1 =
      Except.error (lit "USD price not available for token " ++ tokenID) := by
  have hidx := (mapIndex_eq_none_iff _ _).2 hno
  simp [fetchTokenPrice, hget, hun, hidx, StatusOK]

/-- Witness for C6: a price map with a euro price only, and a body with no market data at all. -/
theorem fetchTokenPrice_missing_usd_witness :
    (sampleEnv.Get (coinGeckoURL (lit "eurcoin")) = GetResult.response 200 eurcoinBody none ∧
      sampleEnv.Unmarshal eurcoinBody = Except.ok
        ⟨lit "eurcoin", lit "eurc", lit "Euro Coin", ⟨some [(lit "eur", 1)]⟩⟩ ∧
      lit "usd" ∉ mapKeys (some [(lit "eur", (1 : Int))]) ∧
      (fetchTokenPrice sampleEnv (lit "eurcoin") World.empty).1 =
        Except.error (lit "USD price not available for token eurcoin")) ∧
    (sampleEnv.Get (coinGeckoURL (lit "nomarket")) =
        GetResult.response 200 (lit "\x7b\x7d") none ∧
      sampleEnv.Unmarshal (lit "\x7b\x7d") = Except.ok ⟨[], [], [], ⟨none⟩⟩ ∧
      lit "usd" ∉ mapKeys (none : GoMap Int) ∧
      (fetchTokenPrice sampleEnv (lit "nomarket") World.empty).1 =
        Except.error (lit "USD price not available for token nomarket")) :=
  ⟨⟨by rfl, by rfl, by decide,
      fetchTokenPrice_missing_usd sampleEnv (lit "eurcoin") World.empty eurcoinBody
        ⟨lit "eurcoin", lit "eurc", lit "Euro Coin", ⟨some [(lit "eur", 1)]⟩⟩
        (by rfl) (by rfl) (by decide)⟩,
    ⟨by rfl, by rfl, by decide,
      fetchTokenPrice_missing_usd sampleEnv (lit "nomarket") World.empty (lit "\x7b\x7d")
        ⟨[], [], [], ⟨none⟩⟩ (by rfl) (by rfl) (by decide)⟩⟩

/-- C7: when the upstream answers with a status other than 200, `fetchTokenPrice` returns no
quote: it fails with the message `CoinGecko API returned status <code>: <body>`, which holds
the status code in decimal and the bytes read from the body, whatever they are; status 429 with
body `rate limited` gives `CoinGecko API returned status 429: rate limited`. -/
theorem fetchTokenPrice_status_error {F : Type} (env : Env F) (tokenID : GoString) (w : World)
    (code : Int) (body : GoString) (readErr : Option GoString)
    (hget : env.Get (coinGeckoURL tokenID) = GetResult.response code body readErr)
    (hcode : code ≠ 200) :
    ∃ msg : GoString,
      (fetchTokenPrice env tokenID w).1 = Except.error msg ∧
      msg = lit "CoinGecko API returned status " ++ fmtD code ++ lit ": " ++ body ∧
      occursIn (fmtD code) msg ∧ occursIn body msg ∧
      (code = 429 → body = lit "rate limited" →
        msg = lit "CoinGecko API returned status 429: rate limited") := by
  refine ⟨_, ?_, rfl, ?_, occursIn_end _ _, ?_⟩
  · simp [fetchTokenPrice, hget, hcode, StatusOK]
  · exact ⟨lit "CoinGecko API returned status ", lit ": " ++ body, by simp⟩
  · intro h1 h2
    subst h1 h2
    decide

/-- Witness for C7: status 429 with the body "rate limited". -/
theorem fetchTokenPrice_status_error_witness :
    sampleEnv.Get (coinGeckoURL (lit "busy")) =
      GetResult.response 429 (lit "rate limited") none ∧
    (429 : Int) ≠ 200 ∧
    ∃ msg : GoString,
      (fetchTokenPrice sampleEnv (lit "busy") World.empty).1 = Except.error msg ∧
      msg = lit "CoinGecko API returned status " ++ fmtD 429 ++ lit ": " ++ lit "rate limited" ∧
      occursIn (fmtD 429) msg ∧ occursIn (lit "rate limited") msg ∧
      ((429 : Int) = 429 → lit "rate limited" = lit "rate limited" →
        msg = lit "CoinGecko API returned status 429: rate limited") :=
  ⟨by rfl, by decide,
    fetchTokenPrice_status_error sampleEnv (lit "busy") World.empty 429 (lit "rate limited") none
      (by rfl) (by decide)⟩

/-- C9: `HandleTask` ends in one of two ways: with a response whose result is the encoding by
`json.Marshal` of the whole quote that `fetchTokenPrice` built, or with no response and an
error. When `fetchTokenPrice` fails for the request's identifier, `HandleTask` fails with
`failed to fetch price for token <identifier>: <error of fetchTokenPrice>`. -/
theorem HandleTask_all_or_nothing {F : Type} (env : Env F) (t : TaskRequest) (w : World) :
    ((∃ (q : PriceResponse F) (resultBytes : List UInt8),
        (fetchTokenPrice env (string t.Payload) w).1 = Except.ok q ∧
        env.Marshal q = Except.ok resultBytes ∧
        (HandleTask env t w).1 = Except.ok { TaskId := t.TaskId, Result := some resultBytes }) ∨
      (∃ msg : GoString, (HandleTask env t w).1 = Except.error msg)) ∧
    (∀ err : GoString, (fetchTokenPrice env (string t.Payload) w).1 = Except.error err →
      ∃ msg : GoString,
        (HandleTask env t w).1 = Except.error msg ∧
        msg = lit "failed to fetch price for token " ++ string t.Payload ++ lit ": " ++ err ∧
        occursIn (string t.Payload) msg ∧ occursIn err msg) := by
  constructor
  · rcases hres : (HandleTask env t w).1 with msg | resp
    · exact Or.inr ⟨msg, rfl⟩
    · obtain ⟨q, resultBytes, hf, hm, hresp⟩ := HandleTask_ok_inv env t w resp hres
      subst hresp
      exact Or.inl ⟨q, resultBytes, hf, hm, rfl⟩
  · intro err herr
    refine ⟨_, HandleTask_result_of_error env t w err herr, rfl, ?_, occursIn_end _ _⟩
    exact ⟨lit "failed to fetch price for token ", lit ": " ++ err, by simp⟩

/-- Witness for C9: the request of the test "Invalid Token ID", answered with status 404. -/
theorem HandleTask_all_or_nothing_witness :
    (fetchTokenPrice sampleEnv
      (string (TaskRequest.mk (some (lit "test-task-invalid"))
        (some (lit "invalid-token-id-xyz123"))).Payload) World.empty).1 =
      Except.error (lit "CoinGecko API returned status 404: \x7b\"error\":\"coin not found\"\x7d") ∧
    (HandleTask sampleEnv ⟨some (lit "test-task-invalid"), some (lit "invalid-token-id-xyz123")⟩
      World.empty).1 = Except.error (lit "failed to fetch price for token invalid-token-id-xyz123: CoinGecko API returned status 404: \x7b\"error\":\"coin not found\"\x7d") ∧
    ∃ msg : GoString,
      (HandleTask sampleEnv ⟨some (lit "test-task-invalid"), some (lit "invalid-token-id-xyz123")⟩
        World.empty).1 = Except.error msg ∧
      msg = lit "failed to fetch price for token " ++
        string (TaskRequest.mk (some (lit "test-task-invalid"))
          (some (lit "invalid-token-id-xyz123"))).Payload ++ lit ": " ++
        lit "CoinGecko API returned status 404: \x7b\"error\":\"coin not found\"\x7d" ∧
      occursIn (string (TaskRequest.mk (some (lit "test-task-invalid"))
        (some (lit "invalid-token-id-xyz123"))).Payload) msg ∧
      occursIn (lit "CoinGecko API returned status 404: \x7b\"error\":\"coin not found\"\x7d") msg :=
  ⟨by rfl, by rfl,
    (HandleTask_all_or_nothing sampleEnv
      ⟨some (lit "test-task-invalid"), some (lit "invalid-token-id-xyz123")⟩ World.empty).2 _
      (by rfl)⟩

/-- C10, counterexample: for the identifier `bitcoin?x=1` the one call of `client.Get` is on a
URL text whose path stops at `bitcoin` and whose query parameters are not the six flags
(`localization` is no parameter at all); for `a#b` the URL text has no query, the flags are part
of its fragment. -/
theorem lookup_URL_identifier_with_delimiter :
    (fetchTokenPrice sampleEnv (lit "bitcoin?x=1") World.empty).2.gets =
      [⟨lit "https://api.coingecko.com/api/v3/coins/bitcoin?x=1?localization=false&tickers=false&market_data=true&community_data=false&developer_data=false&sparkline=false", 10⟩] ∧
    (splitURL (coinGeckoURL (lit "bitcoin?x=1"))).path = lit "/api/v3/coins/bitcoin" ∧
    (splitURL (coinGeckoURL (lit "bitcoin?x=1"))).path ≠ lit "/api/v3/coins/" ++ lit "bitcoin?x=1" ∧
    queryParams (splitURL (coinGeckoURL (lit "bitcoin?x=1"))).query =
      [(lit "x", lit "1?localization=false"), (lit "tickers", lit "false"),
       (lit "market_data", lit "true"), (lit "community_data", lit "false"),
       (lit "developer_data", lit "false"), (lit "sparkline", lit "false")] ∧
    queryParams (splitURL (coinGeckoURL (lit "bitcoin?x=1"))).query ≠ lookupFlags ∧
    (splitURL (coinGeckoURL (lit "a#b"))).path = lit "/api/v3/coins/a" ∧
    queryParams (splitURL (coinGeckoURL (lit "a#b"))).query = [] := by
  decide

theorem cut_of_not_mem (c : UInt8) (l : List UInt8) (h : c ∉ l) : cut c l = (l, none) := by
  induction l with
  | nil => rfl
  | cons b bs ih =>
    have hb : b ≠ c := fun e => h (by simp [e])
    have hbs : c ∉ bs := fun e => h (by simp [e])
    simp [cut, hb, ih hbs]

theorem cut_append_cons (c : UInt8) (l1 l2 : List UInt8) (h : c ∉ l1) :
    cut c (l1 ++ c :: l2) = (l1, some l2) := by
  induction l1 with
  | nil => simp [cut]
  | cons b bs ih =>
    have hb : b ≠ c := fun e => h (by simp [e])
    have hbs : c ∉ bs := fun e => h (by simp [e])
    simp [cut, hb, ih hbs]

/-- The components of the lookup URL for an identifier free of `?` and `#`. -/
theorem splitURL_coinGeckoURL (tokenID : GoString)
    (hq : (63 : UInt8) ∉ tokenID) (hf : (35 : UInt8) ∉ tokenID) :
    splitURL (coinGeckoURL tokenID) =
      { scheme := lit "https"
        host := lit "api.coingecko.com"
        path := lit "/api/v3/coins/" ++ tokenID
        query := some (lit "localization=false&tickers=false&market_data=true&community_data=false&developer_data=false&sparkline=false")
        fragment := none } := by
  have hP : lit "https://api.coingecko.com/api/v3/coins/" =
      lit "https" ++ 58 :: 47 :: 47 :: (lit "api.coingecko.com" ++ 47 :: lit "api/v3/coins/") := by
    decide
  have hS : lit "?localization=false&tickers=false&market_data=true&community_data=false&developer_data=false&sparkline=false" =
      63 :: lit "localization=false&tickers=false&market_data=true&community_data=false&developer_data=false&sparkline=false" := by
    decide
  have hpath : lit "/api/v3/coins/" = 47 :: lit "api/v3/coins/" := by decide
  have h35P : (35 : UInt8) ∉ lit "https://api.coingecko.com/api/v3/coins/" := by decide
  have h35S : (35 : UInt8) ∉ lit "?localization=false&tickers=false&market_data=true&community_data=false&developer_data=false&sparkline=false" := by
    decide
  have h63P : (63 : UInt8) ∉ lit "https://api.coingecko.com/api/v3/coins/" := by decide
  have h58 : (58 : UInt8) ∉ lit "https" := by decide
  have h47 : (47 : UInt8) ∉ lit "api.coingecko.com" := by decide
  have h1 : cut 35 (coinGeckoURL tokenID) = (coinGeckoURL tokenID, none) := by
    apply cut_of_not_mem
    simp only [coinGeckoURL, List.mem_append, not_or]
    exact ⟨⟨h35P, hf⟩, h35S⟩
  have h2 : cut 63 (coinGeckoURL tokenID) =
      (lit "https://api.coingecko.com/api/v3/coins/" ++ tokenID,
        some (lit "localization=false&tickers=false&market_data=true&community_data=false&developer_data=false&sparkline=false")) := by
    unfold coinGeckoURL
    rw [hS]
    apply cut_append_cons
    simp only [List.mem_append, not_or]
    exact ⟨h63P, hq⟩
  have h3 : cut 58 (lit "https://api.coingecko.com/api/v3/coins/" ++ tokenID) =
      (lit "https", some (47 :: 47 :: (lit "api.coingecko.com" ++
        47 :: (lit "api/v3/coins/" ++ tokenID)))) := by
    rw [hP]
    have := cut_append_cons 58 (lit "https")
      (47 :: 47 :: (lit "api.coingecko.com" ++ 47 :: (lit "api/v3/coins/" ++ tokenID))) h58
    simpa using this
  have h4 : cut 47 (lit "api.coingecko.com" ++ 47 :: (lit "api/v3/coins/" ++ tokenID)) =
      (lit "api.coingecko.com", some (lit "api/v3/coins/" ++ tokenID)) :=
    cut_append_cons 47 _ _ h47
  simp only [splitURL, h1, h2, h3, List.take, List.drop, h4, hpath, if_true, List.cons_append]

/-- C10, amended: for every identifier that contains neither `?` nor `#`, `fetchTokenPrice`
invokes `client.Get` exactly once, on the URL text made of
`https://api.coingecko.com/api/v3/coins/`, the identifier, and
`?localization=false&tickers=false&market_data=true&community_data=false&developer_data=false&sparkline=false`;
the path of that URL text is `/api/v3/coins/` followed by the identifier and its query parameters
are exactly the six flags. What goes out on the wire is what the client sends for that one
invocation. -/
theorem fetchTokenPrice_lookup_call {F : Type} (env : Env F) (tokenID : GoString) (w : World)
    (hq : (63 : UInt8) ∉ tokenID) (hf : (35 : UInt8) ∉ tokenID) :
    ∃ call : GetCall,
      (fetchTokenPrice env tokenID w).2.gets = w.gets ++ [call] ∧
      call.url = lit "https://api.coingecko.com/api/v3/coins/" ++ tokenID ++
        lit "?localization=false&tickers=false&market_data=true&community_data=false&developer_data=false&sparkline=false" ∧
      (fetchTokenPrice env tokenID w).2.sent = w.sent ++ env.Wire call.url ∧
      (splitURL call.url).scheme = lit "https" ∧
      (splitURL call.url).host = lit "api.coingecko.com" ∧
      (splitURL call.url).path = lit "/api/v3/coins/" ++ tokenID ∧
      queryParams (splitURL call.url).query = lookupFlags ∧
      (splitURL call.url).fragment = none := by
  have hflags : queryParams (some (lit "localization=false&tickers=false&market_data=true&community_data=false&developer_data=false&sparkline=false")) =
      lookupFlags := by
    decide
  have hsplit := splitURL_coinGeckoURL tokenID hq hf
  refine ⟨lookupCall tokenID, ?_, rfl, ?_, ?_, ?_, ?_, ?_, ?_⟩
  · rw [fetchTokenPrice_world]
  · rw [fetchTokenPrice_world]
    rfl
  all_goals
    show _ = _
    simp only [lookupCall, hsplit]
  exact hflags

/-- Witness for C10: the identifier `bit coin`, which the client of the sample world sends with
the space escaped. -/
theorem fetchTokenPrice_lookup_call_witness :
    (63 : UInt8) ∉ lit "bit coin" ∧ (35 : UInt8) ∉ lit "bit coin" ∧
    (fetchTokenPrice sampleEnv (lit "bit coin") World.empty).2.sent =
      [⟨lit "GET", lit "https://api.coingecko.com/api/v3/coins/bit%20coin?localization=false&tickers=false&market_data=true&community_data=false&developer_data=false&sparkline=false"⟩] ∧
    ∃ call : GetCall,
      (fetchTokenPrice sampleEnv (lit "bit coin") World.empty).2.gets =
        World.empty.gets ++ [call] ∧
      call.url = lit "https://api.coingecko.com/api/v3/coins/" ++ lit "bit coin" ++
        lit "?localization=false&tickers=false&market_data=true&community_data=false&developer_data=false&sparkline=false" ∧
      (fetchTokenPrice sampleEnv (lit "bit coin") World.empty).2.sent =
        World.empty.sent ++ sampleEnv.Wire call.url ∧
      (splitURL call.url).scheme = lit "https" ∧
      (splitURL call.url).host = lit "api.coingecko.com" ∧
      (splitURL call.url).path = lit "/api/v3/coins/" ++ lit "bit coin" ∧
      queryParams (splitURL call.url).query = lookupFlags ∧
      (splitURL call.url).fragment = none :=
  ⟨by decide, by decide, by decide,
    fetchTokenPrice_lookup_call sampleEnv (lit "bit coin") World.empty (by decide) (by decide)⟩

end DevkitOracle
